import Mathlib

/-!
Verification of the identity & repository-synchronization core of the
portfolio-manager backend.  The Lean definitions below are shallow
embeddings of the Python sources:

* `app/core/security.py`   — JWT issue / verify (token codec)
* `app/services/auth.py`   — OAuth profile normalization, account
  resolution, optional/required current-user lookup
* `app/services/github.py` — repository link CRUD, metadata sync,
  bulk sync
* `app/models/github_repository.py`, `app/models/user.py`,
  `app/models/auth_account.py` — persisted rows and their unique
  constraints (modelled as lists of rows plus commit-time checks)

Time is modelled abstractly (`Int` epoch seconds for token expiry,
`Nat` ticks for sync timestamps); network calls are modelled by passing
the remote outcome as an explicit argument.
-/

namespace PortfolioManager

/-! ## Token codec — `app/core/security.py` -/

/-- Configuration values read from `app.core.config.settings`. -/
structure Settings where
  SECRET_KEY : String
  ACCESS_TOKEN_EXPIRE_MINUTES : Int
  REFRESH_TOKEN_EXPIRE_DAYS : Int
  deriving Repr, DecidableEq

/-- The claim set `{sub, exp, type}` that `create_access_token` /
`create_refresh_token` embed into the JWT.  `sub` and `type` are
optional because `jwt.decode` accepts payloads missing them. -/
structure TokenPayload where
  sub : Option String
  exp : Int
  typ : Option String
  deriving Repr, DecidableEq

/-- A wire token: either a well-formed JWT signed with some secret, or a
string that does not parse as a JWT at all. -/
inductive Jwt where
  | signed (payload : TokenPayload) (secret : String)
  | malformed (raw : String)
  deriving Repr, DecidableEq

/-- Model of `create_access_token(subject, expires_delta)`: embeds
`{exp, sub, type: "access"}` and signs with `settings.SECRET_KEY`.
`expires_delta` is in seconds; `none` selects the configured default of
`ACCESS_TOKEN_EXPIRE_MINUTES` minutes. -/
def create_access_token (subject : String) (expires_delta : Option Int)
    (now : Int) (s : Settings) : Jwt :=
  let expire : Int :=
    match expires_delta with
    | some d => now + d
    | none => now + s.ACCESS_TOKEN_EXPIRE_MINUTES * 60
  Jwt.signed { sub := some subject, exp := expire, typ := some "access" } s.SECRET_KEY

/-- Model of `create_refresh_token(subject, expires_delta)`: same but with
`type: "refresh"` and a default of `REFRESH_TOKEN_EXPIRE_DAYS` days. -/
def create_refresh_token (subject : String) (expires_delta : Option Int)
    (now : Int) (s : Settings) : Jwt :=
  let expire : Int :=
    match expires_delta with
    | some d => now + d
    | none => now + s.REFRESH_TOKEN_EXPIRE_DAYS * 86400
  Jwt.signed { sub := some subject, exp := expire, typ := some "refresh" } s.SECRET_KEY

/-- The errors `jose.jwt.decode` can raise; all three constructors are
subclasses of `JWTError` in python-jose (in particular
`ExpiredSignatureError` is a `JWTError`). -/
inductive JoseError where
  | malformedToken
  | invalidSignature
  | expiredSignature
  deriving Repr, DecidableEq

/-- Model of `jose.jwt.decode(token, key, algorithms)`: parses, verifies the
signature, then validates the `exp` claim (expired when `exp < now`,
leeway 0). -/
def jwt_decode (token : Jwt) (key : String) (now : Int) :
    Except JoseError TokenPayload :=
  match token with
  | .malformed _ => .error .malformedToken
  | .signed payload sig =>
    if sig ≠ key then .error .invalidSignature
    else if payload.exp < now then .error .expiredSignature
    else .ok payload

/-- Model of `fastapi.HTTPException(status_code, detail)` as raised by
`verify_token` and the current-user dependencies. -/
structure HTTPErrorModel where
  status_code : Nat
  detail : String
  deriving Repr, DecidableEq

/-- Model of `verify_token(token, token_type)`: decodes with the configured
secret (any `JWTError`, including expiry, becomes the single
401 "Could not validate credentials" response), then checks the `type`
claim, then requires a `sub` claim, returning it. -/
def verify_token (token : Jwt) (token_type : String) (s : Settings)
    (now : Int) : Except HTTPErrorModel String :=
  match jwt_decode token s.SECRET_KEY now with
  | .error _ => .error ⟨401, "Could not validate credentials"⟩
  | .ok payload =>
    if payload.typ ≠ some token_type then
      .error ⟨401, "Invalid token type. Expected " ++ token_type⟩
    else
      match payload.sub with
      | none => .error ⟨401, "Token payload invalid"⟩
      | some user_id => .ok user_id

/-! ## Current-user dependencies — bottom of `app/services/auth.py` -/

/-- A row of the `users` table as consulted by `get_user_by_id`
(`models/user.py` declares `id: Mapped[int]`). -/
structure DbUser where
  id : Int
  email : String
  deriving Repr, DecidableEq

/-- Parse a decimal digit sequence; `none` when empty or when a
non-digit occurs. -/
def digitsToNat (cs : List Char) : Option Nat :=
  match cs with
  | [] => none
  | _ =>
    cs.foldl
      (fun acc c =>
        match acc with
        | none => none
        | some n => if c.isDigit then some (n * 10 + (c.toNat - '0'.toNat)) else none)
      (some 0)

/-- Python `int(s)` on a bare sign-and-digits literal; `none` models
the raised `ValueError`. -/
def pyInt? (s : String) : Option Int :=
  match s.data with
  | '-' :: rest => (digitsToNat rest).map (fun n => -(n : Int))
  | '+' :: rest => (digitsToNat rest).map (fun n => (n : Int))
  | cs => (digitsToNat cs).map (fun n => (n : Int))

/-- Model of `AuthService.get_user_by_id`: converts the string subject to `int`
(returning `None` on `ValueError`) and selects the user by primary
key. -/
def get_user_by_id (db : List DbUser) (user_id : String) : Option DbUser :=
  match pyInt? user_id with
  | none => none
  | some n => db.find? (fun u => u.id == n)

/-- Model of `get_current_user_optional`: returns `None` for a missing header,
and converts every exception of the verification / lookup pipeline
(malformed, expired, wrong type, unknown subject) into `None`. -/
def get_current_user_optional (authorization : Option Jwt) (db : List DbUser)
    (s : Settings) (now : Int) : Option DbUser :=
  match authorization with
  | none => none
  | some token =>
    match verify_token token "access" s now with
    | .error _ => none
    | .ok user_id => get_user_by_id db user_id

/-- Model of `get_current_user`: delegates to `get_current_user_optional` and
raises 401 "Authorization token required" when the result is absent. -/
def get_current_user (authorization : Option Jwt) (db : List DbUser)
    (s : Settings) (now : Int) : Except HTTPErrorModel DbUser :=
  match get_current_user_optional authorization db s now with
  | none => .error ⟨401, "Authorization token required"⟩
  | some user => .ok user

/-! ## OAuth profile normalization — `app/services/auth.py` -/

/-- Model of `app.schemas.auth.OAuthUserInfo`. -/
structure OAuthUserInfo where
  provider_user_id : String
  email : String
  name : String
  avatar_url : Option String
  github_username : Option String
  deriving Repr, DecidableEq

/-- Python truthiness for an optional string (`None` and `""` are both
falsy). -/
def pyTruthy (o : Option String) : Option String :=
  match o with
  | some v => if v.isEmpty then none else some v
  | none => none

/-- The part of the Kakao `/v2/user/me` response body that
`_get_kakao_user_info` reads: `id`, `kakao_account.email`,
`kakao_account.profile.nickname`, and
`kakao_account.profile.profile_image_url`. -/
structure KakaoUserResponse where
  id : Nat
  email : Option String
  nickname : Option String
  profile_image_url : Option String
  deriving Repr, DecidableEq

/-- The local part of an e-mail string: `email.split("@")[0]`. -/
def emailLocalPart (email : String) : String :=
  String.mk (email.data.takeWhile (fun c => c != '@'))

/-- Whether `"@" in email` holds. -/
def emailHasAt (email : String) : Bool :=
  email.data.any (fun c => c == '@')

/-- The profile-parsing tail of `_get_kakao_user_info` (after a
successful token exchange and user-info fetch): when the optional
e-mail consent is withheld it synthesizes `kakao_{id}@kakao.local`;
the display name prefers the profile nickname and otherwise falls back
to the local part of the e-mail (or `kakao_{id}` for an at-less
e-mail). -/
def parse_kakao_user (user_data : KakaoUserResponse) : OAuthUserInfo :=
  let email : String :=
    match pyTruthy user_data.email with
    | some e => e
    | none => "kakao_" ++ toString user_data.id ++ "@kakao.local"
  let name : String :=
    match pyTruthy user_data.nickname with
    | some n => n
    | none =>
      if emailHasAt email then emailLocalPart email
      else "kakao_" ++ toString user_data.id
  { provider_user_id := toString user_data.id
    email := email
    name := name
    avatar_url := user_data.profile_image_url
    github_username := none }

/-! ## OAuth account resolution — `AuthService.create_or_update_oauth_user` -/

/-- A row of the `users` table as created by the OAuth path (the
service assigns `str(uuid.uuid4())` identifiers, so ids are modelled as
opaque strings here). -/
structure OAuthUser where
  id : String
  email : String
  name : String
  github_username : Option String
  is_verified : Bool
  created_at : Nat
  updated_at : Nat
  deriving Repr, DecidableEq

/-- A row of the `auth_accounts` table (`models/auth_account.py`),
restricted to the fields the service writes. -/
structure AuthAccount where
  id : String
  user_id : String
  provider : String
  provider_account_id : String
  created_at : Nat
  deriving Repr, DecidableEq

/-- The persisted state the OAuth login path reads and writes. -/
structure AuthDb where
  users : List OAuthUser
  accounts : List AuthAccount
  deriving Repr, DecidableEq

/-- The `select(AuthAccount).where(provider == .., provider_account_id == ..)`
lookup. -/
def find_auth_account (db : AuthDb) (provider provider_user_id : String) :
    Option AuthAccount :=
  db.accounts.find? (fun a =>
    a.provider == provider && a.provider_account_id == provider_user_id)

/-- The `select(User).where(User.email == email)` lookup. -/
def find_user_by_email (db : AuthDb) (email : String) : Option OAuthUser :=
  db.users.find? (fun u => u.email == email)

/-- The `select(User).where(User.id == id)` lookup used after an
auth-account hit (`scalar_one`, so absence is an error). -/
def find_user_by_id (db : AuthDb) (user_id : String) : Option OAuthUser :=
  db.users.find? (fun u => u.id == user_id)

/-- Replace the user row with the given id. -/
def updateUser (users : List OAuthUser) (u : OAuthUser) : List OAuthUser :=
  users.map (fun x => if x.id = u.id then u else x)

/-- Model of `AuthService.create_or_update_oauth_user(provider, user_info)`:

1. if an `AuthAccount` matches `(provider, provider_user_id)`, load its
   owner (`scalar_one` — `none` here models the raised
   `NoResultFound`), refresh `name` / `github_username` / `updated_at`;
2. else, if a user with the profile's e-mail exists, attach a new
   `AuthAccount` to that user;
3. else create a new verified user plus a new `AuthAccount`.

The fresh `str(uuid.uuid4())` identifiers are passed explicitly. -/
def create_or_update_oauth_user (db : AuthDb) (provider : String)
    (user_info : OAuthUserInfo) (fresh_user_id fresh_account_id : String)
    (now : Nat) : Option (AuthDb × OAuthUser) :=
  match find_auth_account db provider user_info.provider_user_id with
  | some auth_account =>
    match find_user_by_id db auth_account.user_id with
    | none => none
    | some user =>
      let user := { user with
        name := user_info.name,
        github_username :=
          match pyTruthy user_info.github_username with
          | some g => some g
          | none => user.github_username,
        updated_at := now }
      some ({ db with users := updateUser db.users user }, user)
  | none =>
    match find_user_by_email db user_info.email with
    | some existing_user =>
      let new_auth_account : AuthAccount :=
        { id := fresh_account_id
          user_id := existing_user.id
          provider := provider
          provider_account_id := user_info.provider_user_id
          created_at := now }
      some ({ db with accounts := db.accounts ++ [new_auth_account] }, existing_user)
    | none =>
      let user : OAuthUser :=
        { id := fresh_user_id
          email := user_info.email
          name := user_info.name
          github_username := user_info.github_username
          is_verified := true
          created_at := now
          updated_at := now }
      let auth_account : AuthAccount :=
        { id := fresh_account_id
          user_id := fresh_user_id
          provider := provider
          provider_account_id := user_info.provider_user_id
          created_at := now }
      some ({ users := db.users ++ [user], accounts := db.accounts ++ [auth_account] }, user)

/-! ## Repository link service — `app/services/github.py` -/

/-- The exception classes of `app/core/exceptions.py` raised by
`GithubRepositoryService`; `str(e)` of each is its message. -/
inductive ServiceError where
  | validation (message : String)
  | notFound (message : String)
  | duplicate (message : String)
  | externalAPI (message : String)
  deriving Repr, DecidableEq

/-- Model of `str(e)` for a service exception. -/
def errorMessage : ServiceError → String
  | .validation m => m
  | .notFound m => m
  | .duplicate m => m
  | .externalAPI m => m

/-- A row of the `github_repositories` table
(`models/github_repository.py`); timestamps are abstract ticks. -/
structure GithubRepository where
  id : Nat
  project_id : Nat
  github_url : String
  repository_name : String
  stars : Nat
  forks : Nat
  watchers : Nat
  language : Option String
  license : Option String
  is_private : Bool
  is_fork : Bool
  last_synced_at : Option Nat
  sync_error_message : Option String
  sync_enabled : Bool
  created_at : Nat
  updated_at : Nat
  deriving Repr, DecidableEq

/-- Model of `GithubRepositoryCreate` (`schemas/github.py`): url, optional
explicit `owner/repo` name, sync flag. -/
structure GithubRepositoryCreate where
  github_url : String
  repository_name : Option String
  sync_enabled : Bool
  deriving Repr, DecidableEq

/-- The fields of a `GET /repos/{owner}/{repo}` 200 body that
`sync_repository` reads (`license_name` models
`license.get("name")` when the `license` object is present). -/
structure GithubApiData where
  stargazers_count : Nat
  forks_count : Nat
  watchers_count : Nat
  language : Option String
  license_name : Option String
  is_private : Bool
  is_fork : Bool
  deriving Repr, DecidableEq

/-- Outcome of the `httpx` call inside `_fetch_github_data`: an HTTP
response with a status code, or a raised `httpx.RequestError`. -/
inductive HttpOutcome where
  | response (status_code : Nat) (data : GithubApiData)
  | requestError (message : String)
  deriving Repr, DecidableEq

/-- Model of `GithubRepositoryService._fetch_github_data(repository_name)`:
200 returns the body; 404, 403 and other statuses raise
`ExternalAPIException` with the messages below (the error type is the
message string here, matching `str(e)` as consumed by the caller). -/
def fetch_github_data (repository_name : String) (outcome : HttpOutcome) :
    Except String GithubApiData :=
  match outcome with
  | .requestError m => .error ("Failed to connect to GitHub API: " ++ m)
  | .response status_code data =>
    if status_code = 200 then .ok data
    else if status_code = 404 then
      .error ("Repository " ++ repository_name ++ " not found")
    else if status_code = 403 then
      .error "GitHub API rate limit exceeded"
    else
      .error ("GitHub API error: " ++ toString status_code)

/-- Model of `GithubRepositoryService.get_by_project_id`. -/
def get_by_project_id (store : List GithubRepository) (project_id : Nat) :
    Option GithubRepository :=
  store.find? (fun r => r.project_id == project_id)

/-- Model of `GithubRepositoryService.get_by_id`. -/
def get_by_id (store : List GithubRepository) (repository_id : Nat) :
    Option GithubRepository :=
  store.find? (fun r => r.id == repository_id)

/-- Leftmost match of the regex `github\.com/([^/]+/[^/\.]+)` at this
position: the literal `github.com/`, then a nonempty run without `/`,
then `/`, then a nonempty run without `/` or `.` (both character
classes exclude the char that ends them, so the regex needs no
backtracking and this scan is exact). -/
def matchRepoAt (cs : List Char) : Option (List Char) :=
  match cs with
  | 'g' :: 'i' :: 't' :: 'h' :: 'u' :: 'b' :: '.' :: 'c' :: 'o' :: 'm' :: '/' :: rest =>
    let owner := rest.takeWhile (fun c => c != '/')
    if owner.isEmpty then none
    else
      match rest.drop owner.length with
      | '/' :: rest2 =>
        let name := rest2.takeWhile (fun c => c != '/' && c != '.')
        if name.isEmpty then none
        else some (owner ++ '/' :: name)
      | _ => none
  | _ => none

/-- Model of `re.search`: try every start position, leftmost first. -/
def searchRepo : List Char → Option (List Char)
  | [] => none
  | c :: cs =>
    match matchRepoAt (c :: cs) with
    | some r => some r
    | none => searchRepo cs

/-- Model of `GithubRepositoryService._extract_repo_name(github_url)`: the first
capture of `github\.com/([^/]+/[^/\.]+)`, or `""` when the pattern does
not occur. -/
def extract_repo_name (github_url : String) : String :=
  match searchRepo github_url.data with
  | some r => String.mk r
  | none => ""

/-- Python `s.startswith(p)` (on the underlying character
sequences). -/
def strStartsWith (s p : String) : Bool :=
  p.data.isPrefixOf s.data

/-- Python `a or b` for an optional string `a` (both `None` and `""`
fall through to `b`). -/
def pyOrStr (a : Option String) (b : String) : String :=
  match a with
  | some v => if v.isEmpty then b else v
  | none => b

/-- Whether the SQL `INSERT` of this row commits: the table has unique
constraints on the primary key, on `project_id` (the 1:1 guarantee) and
on `github_url`; violating any raises `IntegrityError`. -/
def commitOk (store : List GithubRepository) (r : GithubRepository) : Bool :=
  store.all (fun x => x.id != r.id && x.project_id != r.project_id &&
    x.github_url != r.github_url)

/-- Model of `GithubRepositoryService.create_github_repository(project_id, data)`:
validates that the URL starts with `https://github.com/`, rejects a URL
already linked to any project, fills `repository_name` from the URL
when not explicitly supplied, and inserts (an `IntegrityError` at
commit — e.g. a second link for the same project — is converted to the
same `DuplicateException`). -/
def create_github_repository (store : List GithubRepository)
    (project_id : Nat) (data : GithubRepositoryCreate) (new_id : Nat)
    (now : Nat) : Except ServiceError (List GithubRepository × GithubRepository) :=
  let github_url := data.github_url
  if strStartsWith github_url "https://github.com/" = false then
    .error (.validation "Invalid GitHub URL format")
  else
    match store.find? (fun r => r.github_url == github_url) with
    | some _ => .error (.duplicate "GitHub URL already exists")
    | none =>
      let github_repo : GithubRepository :=
        { id := new_id
          project_id := project_id
          github_url := github_url
          repository_name := pyOrStr data.repository_name (extract_repo_name github_url)
          stars := 0, forks := 0, watchers := 0
          language := none, license := none
          is_private := false, is_fork := false
          last_synced_at := some now
          sync_error_message := none
          sync_enabled := data.sync_enabled
          created_at := now
          updated_at := now }
      if commitOk store github_repo then .ok (store ++ [github_repo], github_repo)
      else .error (.duplicate "GitHub URL already exists")

/-- Committing a mutated row: every stored row with the same primary
key takes the new value. -/
def updateRepo (store : List GithubRepository) (r : GithubRepository) :
    List GithubRepository :=
  store.map (fun x => if x.id = r.id then r else x)

/-- The marker `sync_repository` greps for in `str(e)` to detect rate
limiting. -/
def rateLimitMark : String := "API rate limit"

/-- Here `containsSub hay needle` is Python `needle in hay` on strings
(character lists). -/
def containsSub : List Char → List Char → Bool
  | [], needle => needle.isEmpty
  | c :: rest, needle => needle.isPrefixOf (c :: rest) || containsSub rest needle

/-- Model of `GithubRepositoryService.sync_repository(repository_id)`: loads the
row (404 → `NotFoundException`), fetches the remote metadata; on
success overwrites the cached stats, clears the error and stamps
`last_synced_at`; on failure stores `str(e)` as the error message,
still stamps `last_synced_at`, commits, and re-raises an
`ExternalAPIException` whose message depends on whether `str(e)`
mentions the rate limit. -/
def sync_repository (store : List GithubRepository) (repository_id : Nat)
    (outcome : HttpOutcome) (now : Nat) :
    List GithubRepository × Except ServiceError GithubRepository :=
  match get_by_id store repository_id with
  | none =>
    (store, .error (.notFound ("GitHub repository with ID " ++
      toString repository_id ++ " not found")))
  | some repository =>
    match fetch_github_data repository.repository_name outcome with
    | .ok github_data =>
      let updated := { repository with
        stars := github_data.stargazers_count
        forks := github_data.forks_count
        watchers := github_data.watchers_count
        language := github_data.language
        license := github_data.license_name
        is_private := github_data.is_private
        is_fork := github_data.is_fork
        last_synced_at := some now
        sync_error_message := none
        updated_at := now }
      (updateRepo store updated, .ok updated)
    | .error e =>
      let failed := { repository with
        sync_error_message := some e
        last_synced_at := some now
        updated_at := now }
      (updateRepo store failed,
        .error (.externalAPI
          (if containsSub e.data rateLimitMark.data then
            "GitHub API rate limit exceeded"
          else "Failed to sync GitHub repository: " ++ e)))

/-- One result entry of `bulk_sync_repositories`; absent dictionary
keys are `none`. -/
structure SyncResultEntry where
  project_id : Nat
  repository_id : Option Nat
  success : Bool
  error : Option String
  last_synced_at : Option Nat
  deriving Repr, DecidableEq

/-- One iteration of the `bulk_sync_repositories` loop.  The boolean
records whether `sync_repository` (and with it the remote call) was
invoked for this project — the instrumentation used to state that
disabled links trigger no remote call. -/
def bulk_sync_item (store : List GithubRepository) (project_id : Nat)
    (outcomes : Nat → HttpOutcome) (now : Nat) :
    List GithubRepository × SyncResultEntry × Bool :=
  match get_by_project_id store project_id with
  | none =>
    (store,
     { project_id := project_id, repository_id := none, success := false
       error := some "No GitHub repository found for this project"
       last_synced_at := none }, false)
  | some repository =>
    if repository.sync_enabled = false then
      (store,
       { project_id := project_id, repository_id := none, success := false
         error := some "Sync is disabled for this repository"
         last_synced_at := none }, false)
    else
      match sync_repository store repository.id (outcomes project_id) now with
      | (store2, .ok _) =>
        (store2,
         { project_id := project_id, repository_id := some repository.id
           success := true, error := none, last_synced_at := some now }, true)
      | (store2, .error e) =>
        (store2,
         { project_id := project_id, repository_id := none, success := false
           error := some (errorMessage e), last_synced_at := none }, true)

/-- Model of `GithubRepositoryService.bulk_sync_repositories(project_ids)`:
iterates the ids in order; every iteration appends exactly one result
entry and any exception of one iteration is captured in that entry.
Returns the final store, the result list, and the list of project ids
for which a remote sync was attempted (the ghost trace). -/
def bulk_sync_repositories (project_ids : List Nat)
    (outcomes : Nat → HttpOutcome) (now : Nat)
    (store : List GithubRepository) :
    List GithubRepository × List SyncResultEntry × List Nat :=
  match project_ids with
  | [] => (store, [], [])
  | project_id :: rest =>
    let step := bulk_sync_item store project_id outcomes now
    let tail := bulk_sync_repositories rest outcomes now step.1
    (tail.1, step.2.1 :: tail.2.1,
      (if step.2.2 then [project_id] else []) ++ tail.2.2)

/-- The spec's classification of a sync failure, §4.5 / §7. -/
inductive RemoteErrorKind where
  | remoteNotFound
  | remoteRateLimited
  | remoteTransient
  deriving Repr, DecidableEq

/-- The marker distinguishing a not-found failure in the raised
message. -/
def notFoundMark : String := " not found"

/-- Which of the spec's three remote-failure kinds a raised
`ExternalAPIException` message denotes: a message mentioning
`" not found"` is `RemoteNotFound`, one mentioning `"API rate limit"`
is `RemoteRateLimited`, anything else is `RemoteTransientFailure`. -/
def raisedKind (m : String) : RemoteErrorKind :=
  if containsSub m.data notFoundMark.data then .remoteNotFound
  else if containsSub m.data rateLimitMark.data then .remoteRateLimited
  else .remoteTransient

/-- The two unique constraints of `github_repositories` together with
the primary key: at most one link per project id and at most one link
per URL globally. -/
def linkInvariant (store : List GithubRepository) : Prop :=
  (store.map (fun r => r.id)).Nodup ∧
  (store.map (fun r => r.project_id)).Nodup ∧
  (store.map (fun r => r.github_url)).Nodup

/-- Well-formedness used by the bulk-sync theorems: distinct primary
keys and distinct project ids. -/
def storeWF (store : List GithubRepository) : Prop :=
  (store.map (fun r => r.id)).Nodup ∧
  (store.map (fun r => r.project_id)).Nodup

/-- The state `bulk_sync_repositories` leaves behind for a project
whose sync succeeded: its stored row carries the freshly fetched stats,
a cleared error and the new `last_synced_at`. -/
def syncedState (store : List GithubRepository) (outcomes : Nat → HttpOutcome)
    (now : Nat) (project_id : Nat) : Prop :=
  ∃ r d, get_by_project_id store project_id = some r ∧
    outcomes project_id = .response 200 d ∧
    r.sync_enabled = true ∧
    r.stars = d.stargazers_count ∧
    r.forks = d.forks_count ∧
    r.watchers = d.watchers_count ∧
    r.language = d.language ∧
    r.license = d.license_name ∧
    r.is_private = d.is_private ∧
    r.is_fork = d.is_fork ∧
    r.last_synced_at = some now ∧
    r.sync_error_message = none

/-- The row `sync_repository` commits on success (abbreviation for the
record update in its body). -/
def syncedRepo (repository : GithubRepository) (d : GithubApiData) (now : Nat) :
    GithubRepository :=
  { repository with
    stars := d.stargazers_count
    forks := d.forks_count
    watchers := d.watchers_count
    language := d.language
    license := d.license_name
    is_private := d.is_private
    is_fork := d.is_fork
    last_synced_at := some now
    sync_error_message := none
    updated_at := now }

/-- The row `sync_repository` commits on failure (abbreviation for the
record update in its body). -/
def failedRepo (repository : GithubRepository) (e : String) (now : Nat) :
    GithubRepository :=
  { repository with
    sync_error_message := some e
    last_synced_at := some now
    updated_at := now }

/-! ## Theorems -/

/-- C2: for every subject id and positive ttl, issuing an access token
and verifying it with expected type "access" before expiry returns the
same subject id, and verifying the same token with expected type
"refresh" fails with the type-mismatch error. -/
theorem c2_token_issue_verify_roundtrip (subject : String) (ttl now now₂ : Int)
    (s : Settings) (hpos : 0 < ttl) (hbefore : now₂ ≤ now + ttl) :
    verify_token (create_access_token subject (some ttl) now s) "access" s now₂ =
      .ok subject ∧
    verify_token (create_access_token subject (some ttl) now s) "refresh" s now₂ =
      .error ⟨401, "Invalid token type. Expected refresh"⟩ := by
  have hexp : ¬ (now + ttl < now₂) := by omega
  constructor <;>
    simp [verify_token, create_access_token, jwt_decode, hexp]

/-- Witness for C2 at subject "7", ttl 60, issued at 100, verified at
120. -/
theorem c2_witness :
    (0 : Int) < 60 ∧ (120 : Int) ≤ 100 + 60 ∧
    (verify_token (create_access_token "7" (some 60) 100 ⟨"k", 30, 7⟩) "access"
        ⟨"k", 30, 7⟩ 120 = .ok "7" ∧
      verify_token (create_access_token "7" (some 60) 100 ⟨"k", 30, 7⟩) "refresh"
        ⟨"k", 30, 7⟩ 120 = .error ⟨401, "Invalid token type. Expected refresh"⟩) :=
  ⟨by norm_num, by norm_num,
    c2_token_issue_verify_roundtrip "7" 60 100 120 ⟨"k", 30, 7⟩ (by norm_num) (by norm_num)⟩

/-- C7 fails on the code: an expired token and a malformed token raise
the *identical* `HTTPException(401, "Could not validate credentials")`
(python-jose's `ExpiredSignatureError` is a subclass of `JWTError`, and
`verify_token` catches `JWTError` with a single generic handler), so an
expiry failure is not distinguishable from an invalid-token failure.
Concretely, a token issued with ttl = -1s and verified immediately
yields exactly the same error value as garbage input. -/
theorem c7_counterexample :
    verify_token (create_access_token "42" (some (-1)) 100 ⟨"secret", 30, 7⟩)
        "access" ⟨"secret", 30, 7⟩ 100 =
      .error ⟨401, "Could not validate credentials"⟩ ∧
    verify_token (.malformed "not-a-jwt") "access" ⟨"secret", 30, 7⟩ 100 =
      .error ⟨401, "Could not validate credentials"⟩ :=
  ⟨rfl, rfl⟩

/-- C7 amended: verify fails on every bad token, but expired tokens
(including a token issued with ttl = -1s), bad-signature tokens and
malformed tokens all fail with the same generic 401
"Could not validate credentials" error — expiry is not a distinct
error kind — while a type mismatch fails with the distinct 401
"Invalid token type. Expected {expectedType}" error. -/
theorem c7_token_error_classification_amended (subject raw sig : String)
    (ttl now now₂ : Int) (s : Settings) (p : TokenPayload) :
    (now + ttl < now₂ →
      verify_token (create_access_token subject (some ttl) now s) "access" s now₂ =
        .error ⟨401, "Could not validate credentials"⟩) ∧
    verify_token (.malformed raw) "access" s now₂ =
      .error ⟨401, "Could not validate credentials"⟩ ∧
    (sig ≠ s.SECRET_KEY →
      verify_token (.signed p sig) "access" s now₂ =
        .error ⟨401, "Could not validate credentials"⟩) ∧
    (¬ now + ttl < now₂ →
      verify_token (create_access_token subject (some ttl) now s) "refresh" s now₂ =
        .error ⟨401, "Invalid token type. Expected refresh"⟩) ∧
    (⟨401, "Invalid token type. Expected refresh"⟩ : HTTPErrorModel) ≠
      ⟨401, "Could not validate credentials"⟩ := by
  refine ⟨?_, ?_, ?_, ?_, by decide⟩
  · intro h
    simp [verify_token, create_access_token, jwt_decode, h]
  · simp [verify_token, jwt_decode]
  · intro h
    simp [verify_token, jwt_decode, h]
  · intro h
    simp [verify_token, create_access_token, jwt_decode, h]

/-- Witness for the amended C7: each failure mode at a concrete
input. -/
theorem c7_amended_witness :
    verify_token (create_access_token "1" (some (-1)) 100 ⟨"k", 30, 7⟩) "access"
        ⟨"k", 30, 7⟩ 100 = .error ⟨401, "Could not validate credentials"⟩ ∧
    verify_token (.malformed "xx") "access" ⟨"k", 30, 7⟩ 100 =
      .error ⟨401, "Could not validate credentials"⟩ ∧
    verify_token (.signed ⟨some "1", 200, some "access"⟩ "bad") "access"
        ⟨"k", 30, 7⟩ 100 = .error ⟨401, "Could not validate credentials"⟩ ∧
    verify_token (create_access_token "1" (some 60) 100 ⟨"k", 30, 7⟩) "refresh"
        ⟨"k", 30, 7⟩ 100 = .error ⟨401, "Invalid token type. Expected refresh"⟩ := by
  have h₁ := c7_token_error_classification_amended "1" "xx" "bad" (-1) 100 100
    ⟨"k", 30, 7⟩ ⟨some "1", 200, some "access"⟩
  have h₂ := c7_token_error_classification_amended "1" "xx" "bad" 60 100 100
    ⟨"k", 30, 7⟩ ⟨some "1", 200, some "access"⟩
  exact ⟨h₁.1 (by norm_num), h₁.2.1, h₁.2.2.1 (by decide),
    h₂.2.2.2.1 (by norm_num)⟩

/-- C3: the optional current-user lookup never surfaces an error — a
missing header, any token-verification failure and an unknown subject
all yield `none` — and the required variant returns exactly the
optional variant's user, raising 401 "Authorization token required"
precisely when the optional variant yields `none`. -/
theorem c3_current_user_optional_total (authorization : Option Jwt)
    (db : List DbUser) (s : Settings) (now : Int) :
    get_current_user_optional none db s now = none ∧
    (∀ token e, authorization = some token →
      verify_token token "access" s now = .error e →
      get_current_user_optional authorization db s now = none) ∧
    (∀ token user_id, authorization = some token →
      verify_token token "access" s now = .ok user_id →
      get_user_by_id db user_id = none →
      get_current_user_optional authorization db s now = none) ∧
    (∀ user, get_current_user authorization db s now = .ok user ↔
      get_current_user_optional authorization db s now = some user) ∧
    (get_current_user authorization db s now =
        .error ⟨401, "Authorization token required"⟩ ↔
      get_current_user_optional authorization db s now = none) := by
  refine ⟨rfl, ?_, ?_, ?_, ?_⟩
  · rintro token e rfl hv
    simp [get_current_user_optional, hv]
  · rintro token user_id rfl hv hu
    simp [get_current_user_optional, hv, hu]
  · intro user
    unfold get_current_user
    cases h : get_current_user_optional authorization db s now <;> simp
  · unfold get_current_user
    cases h : get_current_user_optional authorization db s now <;> simp

/-- Witness for C3: a malformed bearer token yields `none` from the
optional lookup and the 401 from the required one. -/
theorem c3_witness :
    get_current_user_optional (some (Jwt.malformed "zz")) [] ⟨"k", 30, 7⟩ 0 = none ∧
    get_current_user (some (Jwt.malformed "zz")) [] ⟨"k", 30, 7⟩ 0 =
      .error ⟨401, "Authorization token required"⟩ := by
  have h := c3_current_user_optional_total (some (Jwt.malformed "zz")) [] ⟨"k", 30, 7⟩ 0
  have h₁ := h.2.1 (Jwt.malformed "zz") ⟨401, "Could not validate credentials"⟩ rfl rfl
  exact ⟨h₁, h.2.2.2.2.mpr h₁⟩

/-- C8 fails on the code: when the Kakao account withholds the e-mail,
`_get_kakao_user_info` synthesizes `kakao_{id}@kakao.local`, whose
local part is `kakao_` followed by the provider user id — not the
claimed `{providerUserId}@kakao.local`. -/
theorem c8_counterexample :
    (parse_kakao_user ⟨123, none, some "nick", none⟩).provider_user_id = "123" ∧
    (parse_kakao_user ⟨123, none, some "nick", none⟩).email = "kakao_123@kakao.local" ∧
    (parse_kakao_user ⟨123, none, some "nick", none⟩).email ≠
      (parse_kakao_user ⟨123, none, some "nick", none⟩).provider_user_id ++ "@kakao.local" :=
  ⟨rfl, rfl, by decide⟩

/-- C8 amended: with the e-mail consent withheld the fetch still
succeeds and synthesizes the deterministic placeholder
`"kakao_{providerUserId}@kakao.local"`; the display name falls back to
the provider nickname or, absent that, to the local part of the
synthesized e-mail. -/
theorem c8_kakao_placeholder_amended (d : KakaoUserResponse)
    (hmail : pyTruthy d.email = none) :
    (parse_kakao_user d).email = "kakao_" ++ toString d.id ++ "@kakao.local" ∧
    (parse_kakao_user d).provider_user_id = toString d.id ∧
    (∀ n, pyTruthy d.nickname = some n → (parse_kakao_user d).name = n) ∧
    (pyTruthy d.nickname = none →
      (parse_kakao_user d).name = emailLocalPart ((parse_kakao_user d).email)) := by
  have hat : emailHasAt ("kakao_" ++ toString d.id ++ "@kakao.local") = true := by
    simp [emailHasAt, String.data_append, List.any_append]
  refine ⟨?_, rfl, ?_, ?_⟩
  · simp [parse_kakao_user, hmail]
  · intro n hn
    simp [parse_kakao_user, hmail, hn]
  · intro hn
    simp [parse_kakao_user, hmail, hn, hat]

/-- Witness for the amended C8 at Kakao id 123 with no nickname. -/
theorem c8_amended_witness :
    (parse_kakao_user ⟨123, none, none, none⟩).email = "kakao_123@kakao.local" ∧
    (parse_kakao_user ⟨123, none, none, none⟩).provider_user_id = "123" ∧
    (parse_kakao_user ⟨123, none, none, none⟩).name = "kakao_123" := by
  have h := c8_kakao_placeholder_amended ⟨123, none, none, none⟩ rfl
  refine ⟨h.1, h.2.1, ?_⟩
  have h₂ := h.2.2.2 rfl
  rw [h₂, h.1]
  rfl

/-! ### List helpers shared by the repository-service proofs -/

theorem containsSub_append_right (xs : List Char) {ys needle : List Char}
    (h : containsSub ys needle = true) : containsSub (xs ++ ys) needle = true := by
  induction xs with
  | nil => simpa using h
  | cons c t ih =>
    simp only [List.cons_append, containsSub, Bool.or_eq_true]
    exact Or.inr ih

theorem takeWhile_append_all {p : Char → Bool} {xs : List Char} (ys : List Char)
    (h : ∀ c ∈ xs, p c = true) :
    (xs ++ ys).takeWhile p = xs ++ ys.takeWhile p := by
  induction xs with
  | nil => simp
  | cons c t ih =>
    have hc : p c = true := h c (List.mem_cons_self c t)
    simp only [List.cons_append, List.takeWhile_cons, hc, if_true]
    rw [ih (fun x hx => h x (List.mem_cons_of_mem c hx))]

theorem takeWhile_all {p : Char → Bool} {xs : List Char}
    (h : ∀ c ∈ xs, p c = true) : xs.takeWhile p = xs := by
  have := takeWhile_append_all (p := p) [] h
  simpa using this

theorem get_by_id_mem {store : List GithubRepository} {repository_id : Nat}
    {repo : GithubRepository} (h : get_by_id store repository_id = some repo) :
    repo ∈ store ∧ repo.id = repository_id := by
  refine ⟨List.mem_of_find?_eq_some h, ?_⟩
  have := List.find?_some h
  simpa using this

theorem get_by_project_id_mem {store : List GithubRepository} {project_id : Nat}
    {repo : GithubRepository} (h : get_by_project_id store project_id = some repo) :
    repo ∈ store ∧ repo.project_id = project_id := by
  refine ⟨List.mem_of_find?_eq_some h, ?_⟩
  have := List.find?_some h
  simpa using this

theorem get_by_id_updateRepo {store : List GithubRepository} {repository_id : Nat}
    {repo r₂ : GithubRepository}
    (h : get_by_id store repository_id = some repo) (hid : r₂.id = repo.id) :
    get_by_id (updateRepo store r₂) repository_id = some r₂ := by
  have hrid : repo.id = repository_id := (get_by_id_mem h).2
  unfold get_by_id at h ⊢
  unfold updateRepo
  induction store with
  | nil => simp at h
  | cons x t ih =>
    by_cases hx : x.id = repository_id
    · rw [List.find?_cons_of_pos _ (by simp [hx])] at h
      have hxr : x = repo := by injection h
      rw [List.map_cons, if_pos (by rw [hxr, hid])]
      exact List.find?_cons_of_pos _ (by simp [hid, hrid])
    · rw [List.find?_cons_of_neg _ (by simp [hx])] at h
      rw [List.map_cons, if_neg (by rw [hid, hrid]; exact hx)]
      rw [List.find?_cons_of_neg _ (by simp [hx])]
      exact ih h

/-- C1: on every failing remote fetch, `sync_repository` persists the
failure message into `sync_error_message`, stamps `last_synced_at` with
the current time (strictly advancing it), commits that row, and only
then re-raises an `ExternalAPIException`; the raised message classifies
the failure — not-found for a 404, rate-limited for a 403, transient
otherwise — as long as the repository name does not itself spuriously
contain a classification marker. -/
theorem c1_sync_failure_persists_and_classifies
    (store : List GithubRepository) (repository_id : Nat)
    (repo : GithubRepository) (outcome : HttpOutcome) (now : Nat) (emsg : String)
    (hrepo : get_by_id store repository_id = some repo)
    (hfetch : fetch_github_data repo.repository_name outcome = .error emsg)
    (hadv : ∀ t, repo.last_synced_at = some t → t < now) :
    (sync_repository store repository_id outcome now).1 =
      updateRepo store { repo with
        sync_error_message := some emsg
        last_synced_at := some now
        updated_at := now } ∧
    get_by_id (sync_repository store repository_id outcome now).1 repository_id =
      some { repo with
        sync_error_message := some emsg
        last_synced_at := some now
        updated_at := now } ∧
    (∃ m, (sync_repository store repository_id outcome now).2 =
      .error (.externalAPI m)) ∧
    (∀ t, repo.last_synced_at = some t →
      ∃ t₂, ({ repo with
        sync_error_message := some emsg
        last_synced_at := some now
        updated_at := now } : GithubRepository).last_synced_at = some t₂ ∧ t < t₂) ∧
    (∀ d, outcome = .response 404 d →
      containsSub ("Repository " ++ repo.repository_name ++ " not found").data
          rateLimitMark.data = false →
      (sync_repository store repository_id outcome now).2 =
        .error (.externalAPI ("Failed to sync GitHub repository: " ++
          ("Repository " ++ repo.repository_name ++ " not found"))) ∧
      raisedKind ("Failed to sync GitHub repository: " ++
        ("Repository " ++ repo.repository_name ++ " not found")) = .remoteNotFound) ∧
    (∀ d, outcome = .response 403 d →
      (sync_repository store repository_id outcome now).2 =
        .error (.externalAPI "GitHub API rate limit exceeded") ∧
      raisedKind "GitHub API rate limit exceeded" = .remoteRateLimited) ∧
    (containsSub emsg.data rateLimitMark.data = false →
      (sync_repository store repository_id outcome now).2 =
        .error (.externalAPI ("Failed to sync GitHub repository: " ++ emsg)) ∧
      (containsSub ("Failed to sync GitHub repository: " ++ emsg).data
          notFoundMark.data = false →
       containsSub ("Failed to sync GitHub repository: " ++ emsg).data
          rateLimitMark.data = false →
        raisedKind ("Failed to sync GitHub repository: " ++ emsg) =
          .remoteTransient)) := by
  have hs : sync_repository store repository_id outcome now =
      (updateRepo store { repo with
          sync_error_message := some emsg
          last_synced_at := some now
          updated_at := now },
        .error (.externalAPI (if containsSub emsg.data rateLimitMark.data then
          "GitHub API rate limit exceeded"
        else "Failed to sync GitHub repository: " ++ emsg))) := by
    unfold sync_repository
    rw [hrepo]
    dsimp only
    rw [hfetch]
  refine ⟨by rw [hs], ?_, ?_, ?_, ?_, ?_, ?_⟩
  · rw [hs]
    exact get_by_id_updateRepo hrepo rfl
  · exact ⟨_, by rw [hs]⟩
  · intro t ht
    exact ⟨now, rfl, hadv t ht⟩
  · rintro d rfl hclean
    have he : emsg = "Repository " ++ repo.repository_name ++ " not found" := by
      have h404 : fetch_github_data repo.repository_name (.response 404 d) =
          .error ("Repository " ++ repo.repository_name ++ " not found") := rfl
      have := h404.symm.trans hfetch
      injection this with h
      exact h.symm
    subst he
    constructor
    · rw [hs, hclean]
      rfl
    · have hnf : containsSub ("Failed to sync GitHub repository: " ++
          ("Repository " ++ repo.repository_name ++ " not found")).data
          notFoundMark.data = true := by
        rw [String.data_append, String.data_append]
        exact containsSub_append_right _ (containsSub_append_right _ (by decide))
      unfold raisedKind
      rw [hnf]
      rfl
  · rintro d rfl
    have he : emsg = "GitHub API rate limit exceeded" := by
      have h403 : fetch_github_data repo.repository_name (.response 403 d) =
          .error "GitHub API rate limit exceeded" := rfl
      have := h403.symm.trans hfetch
      injection this with h
      exact h.symm
    subst he
    exact ⟨by rw [hs]; rfl, by decide⟩
  · intro hclean
    refine ⟨by rw [hs, hclean]; rfl, ?_⟩
    intro hnf hrl
    unfold raisedKind
    rw [hnf, hrl]
    rfl

/-- Witness for C1: a single linked repository, a 404 from the remote,
sync at tick 5. -/
theorem c1_witness :
    (sync_repository
        [{ id := 10, project_id := 1, github_url := "https://github.com/a/b",
           repository_name := "a/b", stars := 0, forks := 0, watchers := 0,
           language := none, license := none, is_private := false, is_fork := false,
           last_synced_at := some 0, sync_error_message := none, sync_enabled := true,
           created_at := 0, updated_at := 0 }] 10
        (.response 404 ⟨0, 0, 0, none, none, false, false⟩) 5).2 =
      .error (.externalAPI ("Failed to sync GitHub repository: " ++
        ("Repository " ++ "a/b" ++ " not found"))) ∧
    raisedKind ("Failed to sync GitHub repository: " ++
      ("Repository " ++ "a/b" ++ " not found")) = .remoteNotFound ∧
    get_by_id (sync_repository
        [{ id := 10, project_id := 1, github_url := "https://github.com/a/b",
           repository_name := "a/b", stars := 0, forks := 0, watchers := 0,
           language := none, license := none, is_private := false, is_fork := false,
           last_synced_at := some 0, sync_error_message := none, sync_enabled := true,
           created_at := 0, updated_at := 0 }] 10
        (.response 404 ⟨0, 0, 0, none, none, false, false⟩) 5).1 10 =
      some { id := 10
             project_id := 1
             github_url := "https://github.com/a/b"
             repository_name := "a/b"
             stars := 0
             forks := 0
             watchers := 0
             language := none
             license := none
             is_private := false
             is_fork := false
             last_synced_at := some 5
             sync_error_message := some ("Repository " ++ "a/b" ++ " not found")
             sync_enabled := true
             created_at := 0
             updated_at := 5 } := by
  have h := c1_sync_failure_persists_and_classifies
    [{ id := 10, project_id := 1, github_url := "https://github.com/a/b",
       repository_name := "a/b", stars := 0, forks := 0, watchers := 0,
       language := none, license := none, is_private := false, is_fork := false,
       last_synced_at := some 0, sync_error_message := none, sync_enabled := true,
       created_at := 0, updated_at := 0 }] 10
    { id := 10, project_id := 1, github_url := "https://github.com/a/b",
      repository_name := "a/b", stars := 0, forks := 0, watchers := 0,
      language := none, license := none, is_private := false, is_fork := false,
      last_synced_at := some 0, sync_error_message := none, sync_enabled := true,
      created_at := 0, updated_at := 0 }
    (.response 404 ⟨0, 0, 0, none, none, false, false⟩) 5
    ("Repository " ++ "a/b" ++ " not found") rfl rfl
    (by intro t ht; simp at ht; omega)
  have h404 := h.2.2.2.2.1 ⟨0, 0, 0, none, none, false, false⟩ rfl (by decide)
  exact ⟨h404.1, h404.2, h.2.1⟩

/-- C6: linking enforces the uniqueness invariants — after a
successful `link`, a second `link` with the same URL (any project)
fails with the duplicate error, a second `link` for the same project
(any valid URL) fails with the duplicate error, and a store satisfying
the one-per-project / one-per-URL invariant still satisfies it after
the successful link. -/
theorem c6_link_uniqueness (store store₁ : List GithubRepository)
    (p₁ p₂ : Nat) (d₁ d₂ : GithubRepositoryCreate) (id₁ id₂ t₁ t₂ : Nat)
    (r₁ : GithubRepository)
    (h₁ : create_github_repository store p₁ d₁ id₁ t₁ = .ok (store₁, r₁)) :
    (d₂.github_url = d₁.github_url →
      create_github_repository store₁ p₂ d₂ id₂ t₂ =
        .error (.duplicate "GitHub URL already exists")) ∧
    (strStartsWith d₂.github_url "https://github.com/" = true →
      create_github_repository store₁ p₁ d₂ id₂ t₂ =
        .error (.duplicate "GitHub URL already exists")) ∧
    (linkInvariant store → linkInvariant store₁) := by
  unfold create_github_repository at h₁
  dsimp only at h₁
  split at h₁
  · exact absurd h₁ (by simp)
  next hval =>
    split at h₁
    next r hfind => exact absurd h₁ (by simp)
    next hfind =>
      split at h₁
      next hcommit =>
        injection h₁ with hpair
        injection hpair with hstore hr
        rw [hr] at hstore hcommit
        have hurl₁ : r₁.github_url = d₁.github_url := by rw [← hr]
        have hproj₁ : r₁.project_id = p₁ := by rw [← hr]
        subst hstore
        have hstrue : strStartsWith d₁.github_url "https://github.com/" = true := by
          revert hval
          cases strStartsWith d₁.github_url "https://github.com/" <;> simp
        refine ⟨?_, ?_, ?_⟩
        · intro hurl
          have hf₂ : (store ++ [r₁]).find? (fun r => r.github_url == d₁.github_url) =
              some r₁ := by
            rw [List.find?_append, hfind, Option.none_or, List.find?_singleton,
              if_pos (by simp [hurl₁])]
          unfold create_github_repository
          dsimp only
          rw [hurl, hstrue, hf₂]
          rfl
        · intro hstart
          unfold create_github_repository
          dsimp only
          split
          next hcond => rw [hstart] at hcond; exact absurd hcond (by simp)
          next =>
            split
            · rfl
            next hfind₂ =>
              split
              next hcommit₂ =>
                exfalso
                rw [commitOk, List.all_eq_true] at hcommit₂
                have hmem : r₁ ∈ store ++ [r₁] := by simp
                have hx := hcommit₂ r₁ hmem
                simp [hproj₁] at hx
              next => rfl
        · rintro ⟨hid, hproj, hurl⟩
          rw [commitOk, List.all_eq_true] at hcommit
          refine ⟨?_, ?_, ?_⟩
          · rw [List.map_append, List.nodup_append]
            refine ⟨hid, by simp, ?_⟩
            rw [List.map_cons, List.map_nil, List.disjoint_singleton]
            intro hmem
            obtain ⟨x, hx, hfx⟩ := List.mem_map.mp hmem
            have hc := hcommit x hx
            simp [hfx] at hc
          · rw [List.map_append, List.nodup_append]
            refine ⟨hproj, by simp, ?_⟩
            rw [List.map_cons, List.map_nil, List.disjoint_singleton]
            intro hmem
            obtain ⟨x, hx, hfx⟩ := List.mem_map.mp hmem
            have hc := hcommit x hx
            simp [hfx] at hc
          · rw [List.map_append, List.nodup_append]
            refine ⟨hurl, by simp, ?_⟩
            rw [List.map_cons, List.map_nil, List.disjoint_singleton]
            intro hmem
            obtain ⟨x, hx, hfx⟩ := List.mem_map.mp hmem
            have hc := hcommit x hx
            simp [hfx] at hc
      next hcommit => exact absurd h₁ (by simp)

/-- Witness for C6: link project 1 to a URL from the empty store, then
relink the same URL to project 2 and relink project 1 to a fresh
URL. -/
theorem c6_witness :
    create_github_repository
      [{ id := 1
         project_id := 1
         github_url := "https://github.com/a/b"
         repository_name := "a/b"
         stars := 0
         forks := 0
         watchers := 0
         language := none
         license := none
         is_private := false
         is_fork := false
         last_synced_at := some 0
         sync_error_message := none
         sync_enabled := true
         created_at := 0
         updated_at := 0 }] 2 ⟨"https://github.com/a/b", none, true⟩ 2 1 =
      .error (.duplicate "GitHub URL already exists") ∧
    create_github_repository
      [{ id := 1
         project_id := 1
         github_url := "https://github.com/a/b"
         repository_name := "a/b"
         stars := 0
         forks := 0
         watchers := 0
         language := none
         license := none
         is_private := false
         is_fork := false
         last_synced_at := some 0
         sync_error_message := none
         sync_enabled := true
         created_at := 0
         updated_at := 0 }] 1 ⟨"https://github.com/c/d", none, true⟩ 2 1 =
      .error (.duplicate "GitHub URL already exists") ∧
    linkInvariant
      [{ id := 1
         project_id := 1
         github_url := "https://github.com/a/b"
         repository_name := "a/b"
         stars := 0
         forks := 0
         watchers := 0
         language := none
         license := none
         is_private := false
         is_fork := false
         last_synced_at := some 0
         sync_error_message := none
         sync_enabled := true
         created_at := 0
         updated_at := 0 }] := by
  have h := c6_link_uniqueness [] ([] ++ [_]) 1 2
    ⟨"https://github.com/a/b", none, true⟩ ⟨"https://github.com/a/b", none, true⟩
    1 2 0 1 _ rfl
  have h' := c6_link_uniqueness [] ([] ++ [_]) 1 1
    ⟨"https://github.com/a/b", none, true⟩ ⟨"https://github.com/c/d", none, true⟩
    1 2 0 1 _ rfl
  exact ⟨h.1 rfl, h'.2.1 rfl, h.2.2 (by simp [linkInvariant])⟩

/-- C9 fails on the code: the URL validation only checks the literal
`https://github.com/` string prefix, not the full
`https://{host}/{owner}/{name}` repository shape — the owner-and-name-
less URL `https://github.com/x` is accepted (with an empty derived
repository name) instead of being rejected with the invalid-URL
error. -/
theorem c9_counterexample :
    (create_github_repository [] 1
      ⟨"https://github.com/x", none, true⟩ 1 0).isOk = true ∧
    (create_github_repository [] 1
      ⟨"https://github.com/x", none, true⟩ 1 0).toOption.map
        (fun p => p.2.repository_name) = some "" :=
  ⟨rfl, rfl⟩

theorem searchRepo_cons_some {c : Char} {cs r : List Char}
    (h : matchRepoAt (c :: cs) = some r) : searchRepo (c :: cs) = some r := by
  simp only [searchRepo, h]

/-- C9 amended: `create_github_repository` accepts exactly the URLs
starting with the literal `https://github.com/` (everything else is
rejected with the invalid-URL validation error) — it does *not* check
the full `https://{host}/{owner}/{name}` shape — and for an accepted
well-shaped URL `https://github.com/{owner}/{name}` (owner nonempty
without `/`, name nonempty without `/` or `.`) the stored link's
derived repository name is exactly `owner/name` and is returned by a
subsequent project lookup. -/
theorem c9_url_validation_amended (store store₂ : List GithubRepository)
    (project_id new_id now : Nat) (data : GithubRepositoryCreate)
    (owner rname : String) (se : Bool) (r : GithubRepository)
    (howner₁ : owner.data ≠ []) (howner₂ : ∀ c ∈ owner.data, c ≠ '/')
    (hrname₁ : rname.data ≠ [])
    (hrname₂ : ∀ c ∈ rname.data, c ≠ '/' ∧ c ≠ '.')
    (hok : create_github_repository store project_id
      ⟨"https://github.com/" ++ owner ++ "/" ++ rname, none, se⟩ new_id now =
        .ok (store₂, r)) :
    (strStartsWith data.github_url "https://github.com/" = false →
      create_github_repository store project_id data new_id now =
        .error (.validation "Invalid GitHub URL format")) ∧
    extract_repo_name ("https://github.com/" ++ owner ++ "/" ++ rname) =
      owner ++ "/" ++ rname ∧
    r.repository_name = owner ++ "/" ++ rname ∧
    get_by_project_id store₂ project_id = some r := by
  have howners : (owner.data ++ '/' :: rname.data).takeWhile (fun c => c != '/') =
      owner.data := by
    rw [takeWhile_append_all _ (fun c hc => by simpa using howner₂ c hc)]
    simp
  have hnames : rname.data.takeWhile (fun c => c != '/' && c != '.') = rname.data :=
    takeWhile_all (fun c hc => by
      obtain ⟨h1, h2⟩ := hrname₂ c hc
      simp [h1, h2])
  have hoem : owner.data.isEmpty = false := by
    rw [Bool.eq_false_iff]
    intro h
    exact howner₁ (List.isEmpty_iff.mp h)
  have hnem : rname.data.isEmpty = false := by
    rw [Bool.eq_false_iff]
    intro h
    exact hrname₁ (List.isEmpty_iff.mp h)
  have hmatch : matchRepoAt ('g' :: 'i' :: 't' :: 'h' :: 'u' :: 'b' :: '.' :: 'c'
      :: 'o' :: 'm' :: '/' :: (owner.data ++ '/' :: rname.data)) =
      some (owner.data ++ '/' :: rname.data) := by
    have hred : matchRepoAt ('g' :: 'i' :: 't' :: 'h' :: 'u' :: 'b' :: '.' :: 'c'
        :: 'o' :: 'm' :: '/' :: (owner.data ++ '/' :: rname.data)) =
        (if ((owner.data ++ '/' :: rname.data).takeWhile (fun c => c != '/')).isEmpty then
          none
        else
          match (owner.data ++ '/' :: rname.data).drop
              ((owner.data ++ '/' :: rname.data).takeWhile (fun c => c != '/')).length with
          | '/' :: rest2 =>
            if (rest2.takeWhile (fun c => c != '/' && c != '.')).isEmpty then none
            else some ((owner.data ++ '/' :: rname.data).takeWhile (fun c => c != '/') ++
              '/' :: rest2.takeWhile (fun c => c != '/' && c != '.'))
          | _ => none) := rfl
    rw [hred]
    simp only [howners, hoem, List.drop_left]
    rw [hnames, hnem]
    rfl
  have hdata : ("https://github.com/" ++ owner ++ "/" ++ rname).data =
      'h' :: 't' :: 't' :: 'p' :: 's' :: ':' :: '/' :: '/' :: 'g' :: 'i' :: 't'
        :: 'h' :: 'u' :: 'b' :: '.' :: 'c' :: 'o' :: 'm' :: '/'
        :: (owner.data ++ '/' :: rname.data) := by
    simp [String.data_append]
  have hsearch : searchRepo ("https://github.com/" ++ owner ++ "/" ++ rname).data =
      some (owner.data ++ '/' :: rname.data) := by
    rw [hdata]
    have hskip : searchRepo ('h' :: 't' :: 't' :: 'p' :: 's' :: ':' :: '/' :: '/'
        :: 'g' :: 'i' :: 't' :: 'h' :: 'u' :: 'b' :: '.' :: 'c' :: 'o' :: 'm' :: '/'
        :: (owner.data ++ '/' :: rname.data)) =
        searchRepo ('g' :: 'i' :: 't' :: 'h' :: 'u' :: 'b' :: '.' :: 'c' :: 'o'
        :: 'm' :: '/' :: (owner.data ++ '/' :: rname.data)) := rfl
    rw [hskip]
    exact searchRepo_cons_some hmatch
  have hextract : extract_repo_name ("https://github.com/" ++ owner ++ "/" ++ rname) =
      owner ++ "/" ++ rname := by
    unfold extract_repo_name
    rw [hsearch]
    apply String.ext
    simp [String.data_append]
  unfold create_github_repository at hok
  dsimp only at hok
  split at hok
  · exact absurd hok (by simp)
  next hval =>
    split at hok
    next rdup hfind => exact absurd hok (by simp)
    next hfind =>
      split at hok
      next hcommit =>
        injection hok with hpair
        injection hpair with hstore hr
        rw [hr] at hstore hcommit
        have hname : r.repository_name =
            extract_repo_name ("https://github.com/" ++ owner ++ "/" ++ rname) := by
          rw [← hr]
          rfl
        have hprojr : r.project_id = project_id := by rw [← hr]
        subst hstore
        rw [commitOk, List.all_eq_true] at hcommit
        refine ⟨?_, hextract, by rw [hname, hextract], ?_⟩
        · intro hbad
          unfold create_github_repository
          dsimp only
          rw [hbad]
          rfl
        · have hfindp : store.find? (fun x => x.project_id == project_id) = none := by
            rw [List.find?_eq_none]
            intro x hx
            have hc := hcommit x hx
            rw [hprojr] at hc
            simp at hc ⊢
            exact hc.1.2
          unfold get_by_project_id
          rw [List.find?_append, hfindp, Option.none_or, List.find?_singleton,
            if_pos (by simp [hprojr])]
      next hcommit => exact absurd hok (by simp)

/-- Witness for the amended C9: linking `https://github.com/o/n` to
project 1 from the empty store. -/
theorem c9_amended_witness :
    create_github_repository [] 1 ⟨"http://example.com/a/b", none, true⟩ 1 0 =
      .error (.validation "Invalid GitHub URL format") ∧
    extract_repo_name ("https://github.com/" ++ "o" ++ "/" ++ "n") = "o" ++ "/" ++ "n" ∧
    get_by_project_id ([] ++
      [{ id := 1
         project_id := 1
         github_url := "https://github.com/" ++ "o" ++ "/" ++ "n"
         repository_name := "o/n"
         stars := 0
         forks := 0
         watchers := 0
         language := none
         license := none
         is_private := false
         is_fork := false
         last_synced_at := some 0
         sync_error_message := none
         sync_enabled := true
         created_at := 0
         updated_at := 0 }]) 1 =
      some { id := 1
             project_id := 1
             github_url := "https://github.com/" ++ "o" ++ "/" ++ "n"
             repository_name := "o/n"
             stars := 0
             forks := 0
             watchers := 0
             language := none
             license := none
             is_private := false
             is_fork := false
             last_synced_at := some 0
             sync_error_message := none
             sync_enabled := true
             created_at := 0
             updated_at := 0 } := by
  have h := c9_url_validation_amended [] ([] ++ [_]) 1 1 0
    ⟨"http://example.com/a/b", none, true⟩ "o" "n" true _
    (by decide) (by decide) (by decide) (by decide) rfl
  exact ⟨h.1 (by decide), h.2.1, h.2.2.2⟩

theorem storeWF_id_inj {store : List GithubRepository} (hwf : storeWF store)
    {x y : GithubRepository} (hx : x ∈ store) (hy : y ∈ store)
    (h : x.id = y.id) : x = y :=
  List.inj_on_of_nodup_map hwf.1 hx hy h

theorem updateRepo_map_id (store : List GithubRepository) (r₂ : GithubRepository) :
    (updateRepo store r₂).map (fun r => r.id) = store.map (fun r => r.id) := by
  unfold updateRepo
  rw [List.map_map]
  apply List.map_congr_left
  intro x _
  by_cases h : x.id = r₂.id
  · simp [Function.comp, h]
  · simp [Function.comp, h]

theorem updateRepo_map_project {store : List GithubRepository}
    {r₂ : GithubRepository}
    (hcoh : ∀ x ∈ store, x.id = r₂.id → x.project_id = r₂.project_id) :
    (updateRepo store r₂).map (fun r => r.project_id) =
      store.map (fun r => r.project_id) := by
  unfold updateRepo
  rw [List.map_map]
  apply List.map_congr_left
  intro x hx
  by_cases h : x.id = r₂.id
  · simp [Function.comp, h, hcoh x hx h]
  · simp [Function.comp, h]

theorem storeWF_updateRepo {store : List GithubRepository} {r₂ : GithubRepository}
    (hwf : storeWF store)
    (hcoh : ∀ x ∈ store, x.id = r₂.id → x.project_id = r₂.project_id) :
    storeWF (updateRepo store r₂) := by
  constructor
  · rw [updateRepo_map_id]
    exact hwf.1
  · rw [updateRepo_map_project hcoh]
    exact hwf.2

theorem coh_of_wf {store : List GithubRepository} (hwf : storeWF store)
    {repo : GithubRepository} (hmem : repo ∈ store) {r₂ : GithubRepository}
    (hid : r₂.id = repo.id) (hproj : r₂.project_id = repo.project_id) :
    ∀ x ∈ store, x.id = r₂.id → x.project_id = r₂.project_id := by
  intro x hx hxid
  have hxr : x = repo := storeWF_id_inj hwf hx hmem (by rw [hxid, hid])
  rw [hxr, hproj]

theorem get_by_id_eq_of_wf {store : List GithubRepository} (hwf : storeWF store)
    {repo : GithubRepository} (hmem : repo ∈ store) :
    get_by_id store repo.id = some repo := by
  cases hfind : get_by_id store repo.id with
  | none =>
    exfalso
    unfold get_by_id at hfind
    rw [List.find?_eq_none] at hfind
    exact hfind repo hmem (by simp)
  | some r₂ =>
    obtain ⟨hm₂, hid₂⟩ := get_by_id_mem hfind
    rw [storeWF_id_inj hwf hm₂ hmem hid₂]

theorem get_by_project_id_updateRepo_ne {store : List GithubRepository}
    {r₂ : GithubRepository} {q : Nat}
    (hcoh : ∀ x ∈ store, x.id = r₂.id → x.project_id = r₂.project_id)
    (hq : q ≠ r₂.project_id) :
    get_by_project_id (updateRepo store r₂) q = get_by_project_id store q := by
  unfold get_by_project_id updateRepo
  induction store with
  | nil => simp
  | cons x t ih =>
    have hcx := hcoh x (List.mem_cons_self x t)
    have hct : ∀ y ∈ t, y.id = r₂.id → y.project_id = r₂.project_id :=
      fun y hy => hcoh y (List.mem_cons_of_mem x hy)
    by_cases h : x.id = r₂.id
    · rw [List.map_cons, if_pos h]
      have hpx : x.project_id = r₂.project_id := hcx h
      rw [List.find?_cons_of_neg _ (by simp only [beq_iff_eq]; exact Ne.symm hq),
        List.find?_cons_of_neg _ (by
          simp only [beq_iff_eq, hpx]
          exact Ne.symm hq)]
      exact ih hct
    · rw [List.map_cons, if_neg h]
      by_cases hx : x.project_id = q
      · rw [List.find?_cons_of_pos _ (by simp [hx]),
          List.find?_cons_of_pos _ (by simp [hx])]
      · rw [List.find?_cons_of_neg _ (by simp [hx]),
          List.find?_cons_of_neg _ (by simp [hx])]
        exact ih hct

theorem get_by_project_id_updateRepo_self {store : List GithubRepository}
    (hwf : storeWF store) {repo r₂ : GithubRepository}
    (hmem : repo ∈ store) (hid : r₂.id = repo.id)
    (hproj : r₂.project_id = repo.project_id) :
    get_by_project_id (updateRepo store r₂) repo.project_id = some r₂ := by
  unfold get_by_project_id updateRepo
  induction store with
  | nil => simp at hmem
  | cons x t ih =>
    have hid1 : x.id ∉ t.map (fun r => r.id) ∧
        (t.map (fun r => r.id)).Nodup := by
      have h := hwf.1
      rw [List.map_cons, List.nodup_cons] at h
      exact h
    have hproj1 : x.project_id ∉ t.map (fun r => r.project_id) ∧
        (t.map (fun r => r.project_id)).Nodup := by
      have h := hwf.2
      rw [List.map_cons, List.nodup_cons] at h
      exact h
    rcases List.mem_cons.mp hmem with hrx | hrt
    · rw [List.map_cons, if_pos (by rw [hid, hrx])]
      exact List.find?_cons_of_pos _ (by simp [hproj, hrx])
    · have hxid : x.id ≠ r₂.id := by
        intro h
        have hin : repo.id ∈ t.map (fun r => r.id) :=
          List.mem_map.mpr ⟨repo, hrt, rfl⟩
        rw [← hid, ← h] at hin
        exact hid1.1 hin
      rw [List.map_cons, if_neg hxid]
      have hxproj : x.project_id ≠ repo.project_id := by
        intro h
        have hin : repo.project_id ∈ t.map (fun r => r.project_id) :=
          List.mem_map.mpr ⟨repo, hrt, rfl⟩
        rw [← h] at hin
        exact hproj1.1 hin
      rw [List.find?_cons_of_neg _ (by simp [hxproj])]
      exact ih ⟨hid1.2, hproj1.2⟩ hrt

theorem fetch_ok_iff {name : String} {outcome : HttpOutcome} {d : GithubApiData} :
    fetch_github_data name outcome = .ok d ↔ outcome = .response 200 d := by
  cases outcome with
  | requestError m => simp [fetch_github_data]
  | response code data =>
    by_cases h200 : code = 200
    · subst h200
      simp [fetch_github_data]
    · constructor
      · intro h
        exfalso
        unfold fetch_github_data at h
        dsimp only at h
        rw [if_neg h200] at h
        split at h
        · exact Except.noConfusion h
        · split at h
          · exact Except.noConfusion h
          · exact Except.noConfusion h
      · intro h
        injection h with h _
        exact absurd h h200

theorem bulk_sync_item_spec (store : List GithubRepository) (pid : Nat)
    (o : Nat → HttpOutcome) (now : Nat) (hwf : storeWF store) :
    storeWF (bulk_sync_item store pid o now).1 ∧
    (bulk_sync_item store pid o now).2.1.project_id = pid ∧
    ((bulk_sync_item store pid o now).2.1.success = false →
      ∃ m, (bulk_sync_item store pid o now).2.1.error = some m) ∧
    ((bulk_sync_item store pid o now).2.1.success = true →
      (bulk_sync_item store pid o now).2.1.error = none ∧
      (bulk_sync_item store pid o now).2.1.last_synced_at = some now) ∧
    ((bulk_sync_item store pid o now).2.1.success = true →
      syncedState (bulk_sync_item store pid o now).1 o now pid) ∧
    (∀ q, syncedState store o now q →
      syncedState (bulk_sync_item store pid o now).1 o now q) ∧
    (∀ repo, get_by_project_id store pid = some repo → repo.sync_enabled = false →
      (bulk_sync_item store pid o now).1 = store ∧
      (bulk_sync_item store pid o now).2.1 =
        ⟨pid, none, false, some "Sync is disabled for this repository", none⟩ ∧
      (bulk_sync_item store pid o now).2.2 = false) ∧
    (∀ q repo, q ≠ pid → get_by_project_id store q = some repo →
      get_by_project_id (bulk_sync_item store pid o now).1 q = some repo) := by
  unfold bulk_sync_item
  cases hfound : get_by_project_id store pid with
  | none =>
    refine ⟨hwf, rfl, fun _ => ⟨_, rfl⟩, ?_, ?_, fun q hq => hq, ?_, ?_⟩
    · intro h
      simp at h
    · intro h
      simp at h
    · intro repo hrepo hdis
      exact Option.noConfusion hrepo
    · intro q repo _ hq
      exact hq
  | some repository =>
    obtain ⟨hmem, hpid⟩ := get_by_project_id_mem hfound
    dsimp only
    by_cases hen : repository.sync_enabled = false
    · rw [if_pos hen]
      refine ⟨hwf, rfl, fun _ => ⟨_, rfl⟩, ?_, ?_, fun q hq => hq, ?_, ?_⟩
      · intro h
        simp at h
      · intro h
        simp at h
      · intro repo hrepo hdis
        exact ⟨rfl, rfl, rfl⟩
      · intro q repo _ hq
        exact hq
    · rw [if_neg hen]
      have hent : repository.sync_enabled = true := by
        revert hen
        cases repository.sync_enabled <;> simp
      have hgid := get_by_id_eq_of_wf hwf hmem
      have hcoh₀ : ∀ (r₂ : GithubRepository), r₂.id = repository.id →
          r₂.project_id = repository.project_id →
          ∀ x ∈ store, x.id = r₂.id → x.project_id = r₂.project_id :=
        fun r₂ hid hproj => coh_of_wf hwf hmem hid hproj
      cases hfetch : fetch_github_data repository.repository_name (o pid) with
      | ok d =>
        have hout : o pid = .response 200 d := fetch_ok_iff.mp hfetch
        have hsync : sync_repository store repository.id (o pid) now =
            (updateRepo store (syncedRepo repository d now),
              .ok (syncedRepo repository d now)) := by
          unfold sync_repository
          rw [hgid]
          dsimp only
          rw [hfetch]
          rfl
        rw [hsync]
        have hcoh : ∀ x ∈ store, x.id = (syncedRepo repository d now).id →
            x.project_id = (syncedRepo repository d now).project_id :=
          hcoh₀ _ rfl rfl
        have hest : syncedState (updateRepo store (syncedRepo repository d now))
            o now pid := by
          refine ⟨syncedRepo repository d now, d, ?_, hout, hent,
            rfl, rfl, rfl, rfl, rfl, rfl, rfl, rfl, rfl⟩
          have h := get_by_project_id_updateRepo_self hwf hmem
            (rfl : (syncedRepo repository d now).id = repository.id)
            (rfl : (syncedRepo repository d now).project_id = repository.project_id)
          rw [hpid] at h
          exact h
        refine ⟨storeWF_updateRepo hwf hcoh, rfl, ?_, fun _ => ⟨rfl, rfl⟩,
          fun _ => hest, ?_, ?_, ?_⟩
        · intro h
          simp at h
        · intro q hq
          by_cases hqp : q = pid
          · subst hqp
            exact hest
          · have hne : q ≠ (syncedRepo repository d now).project_id := by
              intro h
              apply hqp
              rw [h]
              exact hpid
            unfold syncedState at hq ⊢
            rw [get_by_project_id_updateRepo_ne hcoh hne]
            exact hq
        · intro repo hrepo hdis
          exfalso
          injection hrepo with h
          rw [h] at hent
          rw [hent] at hdis
          exact Bool.noConfusion hdis
        · intro q repo hne hq
          have hne₂ : q ≠ (syncedRepo repository d now).project_id := by
            intro h
            apply hne
            rw [h]
            exact hpid
          rw [get_by_project_id_updateRepo_ne hcoh hne₂]
          exact hq
      | error e =>
        have hsync : sync_repository store repository.id (o pid) now =
            (updateRepo store (failedRepo repository e now),
              .error (.externalAPI
                (if containsSub e.data rateLimitMark.data then
                  "GitHub API rate limit exceeded"
                else "Failed to sync GitHub repository: " ++ e))) := by
          unfold sync_repository
          rw [hgid]
          dsimp only
          rw [hfetch]
          rfl
        rw [hsync]
        have hcoh : ∀ x ∈ store, x.id = (failedRepo repository e now).id →
            x.project_id = (failedRepo repository e now).project_id :=
          hcoh₀ _ rfl rfl
        refine ⟨storeWF_updateRepo hwf hcoh, rfl, fun _ => ⟨_, rfl⟩, ?_, ?_, ?_, ?_, ?_⟩
        · intro h
          simp at h
        · intro h
          simp at h
        · intro q hq
          by_cases hqp : q = pid
          · exfalso
            subst hqp
            obtain ⟨r, d', hr, ho', _⟩ := hq
            have hok : fetch_github_data repository.repository_name (o q) = .ok d' := by
              rw [ho']
              exact fetch_ok_iff.mpr rfl
            rw [hok] at hfetch
            exact Except.noConfusion hfetch
          · have hne : q ≠ (failedRepo repository e now).project_id := by
              intro h
              apply hqp
              rw [h]
              exact hpid
            unfold syncedState at hq ⊢
            rw [get_by_project_id_updateRepo_ne hcoh hne]
            exact hq
        · intro repo hrepo hdis
          exfalso
          injection hrepo with h
          rw [h] at hent
          rw [hent] at hdis
          exact Bool.noConfusion hdis
        · intro q repo hne hq
          have hne₂ : q ≠ (failedRepo repository e now).project_id := by
            intro h
            apply hne
            rw [h]
            exact hpid
          rw [get_by_project_id_updateRepo_ne hcoh hne₂]
          exact hq

theorem bulk_sync_spec (project_ids : List Nat) (o : Nat → HttpOutcome)
    (now : Nat) :
    ∀ store, storeWF store →
    storeWF (bulk_sync_repositories project_ids o now store).1 ∧
    (bulk_sync_repositories project_ids o now store).2.1.length =
      project_ids.length ∧
    (∀ i (h₁ : i < project_ids.length)
        (h₂ : i < (bulk_sync_repositories project_ids o now store).2.1.length),
      ((bulk_sync_repositories project_ids o now store).2.1.get ⟨i, h₂⟩).project_id =
        project_ids.get ⟨i, h₁⟩) ∧
    (∀ e ∈ (bulk_sync_repositories project_ids o now store).2.1,
      e.success = false → ∃ m, e.error = some m) ∧
    (∀ e ∈ (bulk_sync_repositories project_ids o now store).2.1,
      e.success = true → e.error = none ∧ e.last_synced_at = some now) ∧
    (∀ q, syncedState store o now q →
      syncedState (bulk_sync_repositories project_ids o now store).1 o now q) ∧
    (∀ e ∈ (bulk_sync_repositories project_ids o now store).2.1,
      e.success = true →
      syncedState (bulk_sync_repositories project_ids o now store).1 o now
        e.project_id) ∧
    (∀ q repo, get_by_project_id store q = some repo → repo.sync_enabled = false →
      get_by_project_id (bulk_sync_repositories project_ids o now store).1 q =
        some repo ∧
      (∀ e ∈ (bulk_sync_repositories project_ids o now store).2.1,
        e.project_id = q →
        e = ⟨q, none, false, some "Sync is disabled for this repository", none⟩) ∧
      q ∉ (bulk_sync_repositories project_ids o now store).2.2) ∧
    (∀ q, q ∈ project_ids →
      ∃ e ∈ (bulk_sync_repositories project_ids o now store).2.1,
        e.project_id = q) := by
  induction project_ids with
  | nil =>
    intro store hwf
    refine ⟨hwf, rfl, ?_, ?_, ?_, fun q hq => hq, ?_, ?_, ?_⟩
    · intro i h₁ _
      exact absurd h₁ (Nat.not_lt_zero i)
    · intro e he
      exact absurd he (List.not_mem_nil e)
    · intro e he
      exact absurd he (List.not_mem_nil e)
    · intro e he
      exact absurd he (List.not_mem_nil e)
    · intro q repo hq hdis
      exact ⟨hq, fun e he => absurd he (List.not_mem_nil e), List.not_mem_nil q⟩
    · intro q hq
      exact absurd hq (List.not_mem_nil q)
  | cons pid rest ih =>
    intro store hwf
    obtain ⟨hwf₁, hpidE, hfailE, hsuccE, hestE, hpresE, hdisE, hrowE⟩ :=
      bulk_sync_item_spec store pid o now hwf
    obtain ⟨hwfF, hlen, horder, hfail, hsucc, hpres, hsyncedT, hdisT, hexistT⟩ :=
      ih (bulk_sync_item store pid o now).1 hwf₁
    unfold bulk_sync_repositories
    dsimp only
    refine ⟨hwfF, by simp [hlen], ?_, ?_, ?_, ?_, ?_, ?_, ?_⟩
    · intro i h₁ h₂
      cases i with
      | zero => exact hpidE
      | succ j =>
        exact horder j (by simpa using h₁) (by simpa using h₂)
    · intro e he hf
      rcases List.mem_cons.mp he with he₀ | heT
      · rw [he₀]
        exact hfailE (he₀ ▸ hf)
      · exact hfail e heT hf
    · intro e he hs
      rcases List.mem_cons.mp he with he₀ | heT
      · rw [he₀]
        exact hsuccE (he₀ ▸ hs)
      · exact hsucc e heT hs
    · intro q hq
      exact hpres q (hpresE q hq)
    · intro e he hs
      rcases List.mem_cons.mp he with he₀ | heT
      · rw [he₀, hpidE]
        exact hpres pid (hestE (he₀ ▸ hs))
      · exact hsyncedT e heT hs
    · intro q repo hq hdis
      by_cases hqp : q = pid
      · subst hqp
        obtain ⟨hst, hent, hatt⟩ := hdisE repo hq hdis
        have hq₁ : get_by_project_id (bulk_sync_item store q o now).1 q =
            some repo := by
          rw [hst]
          exact hq
        obtain ⟨hrow, hents, hna⟩ := hdisT q repo hq₁ hdis
        refine ⟨hrow, ?_, ?_⟩
        · intro e he hpe
          rcases List.mem_cons.mp he with he₀ | heT
          · rw [he₀, hent]
          · exact hents e heT hpe
        · intro hmem
          rcases List.mem_append.mp hmem with h₀ | hT
          · rw [hatt] at h₀
            simp at h₀
          · exact hna hT
      · have hq₁ := hrowE q repo hqp hq
        obtain ⟨hrow, hents, hna⟩ := hdisT q repo hq₁ hdis
        refine ⟨hrow, ?_, ?_⟩
        · intro e he hpe
          rcases List.mem_cons.mp he with he₀ | heT
          · exfalso
            rw [he₀, hpidE] at hpe
            exact hqp hpe.symm
          · exact hents e heT hpe
        · intro hmem
          rcases List.mem_append.mp hmem with h₀ | hT
          · cases hb : (bulk_sync_item store pid o now).2.2 with
            | true =>
              rw [hb] at h₀
              simp at h₀
              exact hqp h₀
            | false =>
              rw [hb] at h₀
              simp at h₀
          · exact hna hT
    · intro q hq
      rcases List.mem_cons.mp hq with hq₀ | hqT
      · exact ⟨(bulk_sync_item store pid o now).2.1, List.mem_cons_self _ _,
          by rw [hpidE, hq₀]⟩
      · obtain ⟨e, he, hpe⟩ := hexistT q hqT
        exact ⟨e, List.mem_cons_of_mem _ he, hpe⟩

/-- C4: `bulk_sync_repositories` produces exactly one result entry per
input project id, in input order; a failing item is captured in its own
entry (success=false with an error message) without aborting the rest
or escaping as an exception (the function is total and every id gets an
entry); and a successful item's entry has success=true with the fresh
`last_synced_at`, its stored row carrying the newly fetched stats. -/
theorem c4_bulk_sync_partial_failure_isolation (store : List GithubRepository)
    (project_ids : List Nat) (outcomes : Nat → HttpOutcome) (now : Nat)
    (hwf : storeWF store) :
    (bulk_sync_repositories project_ids outcomes now store).2.1.length =
      project_ids.length ∧
    (∀ i (h₁ : i < project_ids.length)
        (h₂ : i < (bulk_sync_repositories project_ids outcomes now store).2.1.length),
      ((bulk_sync_repositories project_ids outcomes now
        store).2.1.get ⟨i, h₂⟩).project_id = project_ids.get ⟨i, h₁⟩) ∧
    (∀ e ∈ (bulk_sync_repositories project_ids outcomes now store).2.1,
      e.success = false → ∃ m, e.error = some m) ∧
    (∀ e ∈ (bulk_sync_repositories project_ids outcomes now store).2.1,
      e.success = true →
      e.error = none ∧ e.last_synced_at = some now ∧
      syncedState (bulk_sync_repositories project_ids outcomes now store).1
        outcomes now e.project_id) := by
  obtain ⟨_, hlen, horder, hfail, hsucc, _, hsynced, _, _⟩ :=
    bulk_sync_spec project_ids outcomes now store hwf
  refine ⟨hlen, horder, hfail, ?_⟩
  intro e he hs
  obtain ⟨h₁, h₂⟩ := hsucc e he hs
  exact ⟨h₁, h₂, hsynced e he hs⟩

/-- Witness for C4: two ids — project 1 is linked and syncs
successfully, project 2 has no link and fails — with both entries
present. -/
theorem c4_witness :
    (bulk_sync_repositories [1, 2]
      (fun _ => .response 200 ⟨7, 3, 2, some "Py", some "MIT", false, false⟩) 5
      [{ id := 10
         project_id := 1
         github_url := "https://github.com/a/b"
         repository_name := "a/b"
         stars := 0
         forks := 0
         watchers := 0
         language := none
         license := none
         is_private := false
         is_fork := false
         last_synced_at := some 0
         sync_error_message := none
         sync_enabled := true
         created_at := 0
         updated_at := 0 }]).2.1.length = 2 ∧
    (∀ e ∈ (bulk_sync_repositories [1, 2]
      (fun _ => .response 200 ⟨7, 3, 2, some "Py", some "MIT", false, false⟩) 5
      [{ id := 10
         project_id := 1
         github_url := "https://github.com/a/b"
         repository_name := "a/b"
         stars := 0
         forks := 0
         watchers := 0
         language := none
         license := none
         is_private := false
         is_fork := false
         last_synced_at := some 0
         sync_error_message := none
         sync_enabled := true
         created_at := 0
         updated_at := 0 }]).2.1, e.success = false → ∃ m, e.error = some m) := by
  have h := c4_bulk_sync_partial_failure_isolation
    [{ id := 10
       project_id := 1
       github_url := "https://github.com/a/b"
       repository_name := "a/b"
       stars := 0
       forks := 0
       watchers := 0
       language := none
       license := none
       is_private := false
       is_fork := false
       last_synced_at := some 0
       sync_error_message := none
       sync_enabled := true
       created_at := 0
       updated_at := 0 }] [1, 2]
    (fun _ => .response 200 ⟨7, 3, 2, some "Py", some "MIT", false, false⟩) 5
    (by constructor <;> simp)
  exact ⟨h.1, h.2.2.1⟩

/-- C10: a project id in a bulk-sync call whose linked repository has
`sync_enabled = false` triggers no remote call (its id never enters the
sync-attempt trace), its stored row — stats and `last_synced_at`
included — is left completely unchanged by the whole bulk call, and its
result entries are exactly success=false with the error
"Sync is disabled for this repository". -/
theorem c10_bulk_sync_disabled_skip (store : List GithubRepository)
    (project_ids : List Nat) (outcomes : Nat → HttpOutcome) (now : Nat)
    (pid : Nat) (repo : GithubRepository) (hwf : storeWF store)
    (hmem : pid ∈ project_ids)
    (hfound : get_by_project_id store pid = some repo)
    (hdis : repo.sync_enabled = false) :
    get_by_project_id (bulk_sync_repositories project_ids outcomes now store).1
      pid = some repo ∧
    (∀ e ∈ (bulk_sync_repositories project_ids outcomes now store).2.1,
      e.project_id = pid →
      e = ⟨pid, none, false, some "Sync is disabled for this repository", none⟩) ∧
    (∃ e ∈ (bulk_sync_repositories project_ids outcomes now store).2.1,
      e.project_id = pid) ∧
    pid ∉ (bulk_sync_repositories project_ids outcomes now store).2.2 := by
  obtain ⟨_, _, _, _, _, _, _, hdisC, hexist⟩ :=
    bulk_sync_spec project_ids outcomes now store hwf
  obtain ⟨hrow, hents, hna⟩ := hdisC pid repo hfound hdis
  exact ⟨hrow, hents, hexist pid hmem, hna⟩

/-- Witness for C10: one sync-disabled linked project. -/
theorem c10_witness :
    get_by_project_id (bulk_sync_repositories [1]
      (fun _ => .response 200 ⟨7, 3, 2, none, none, false, false⟩) 5
      [{ id := 10
         project_id := 1
         github_url := "https://github.com/a/b"
         repository_name := "a/b"
         stars := 4
         forks := 1
         watchers := 2
         language := some "Py"
         license := none
         is_private := false
         is_fork := false
         last_synced_at := some 3
         sync_error_message := none
         sync_enabled := false
         created_at := 0
         updated_at := 0 }]).1 1 =
      some { id := 10
             project_id := 1
             github_url := "https://github.com/a/b"
             repository_name := "a/b"
             stars := 4
             forks := 1
             watchers := 2
             language := some "Py"
             license := none
             is_private := false
             is_fork := false
             last_synced_at := some 3
             sync_error_message := none
             sync_enabled := false
             created_at := 0
             updated_at := 0 } ∧
    (1 : Nat) ∉ (bulk_sync_repositories [1]
      (fun _ => .response 200 ⟨7, 3, 2, none, none, false, false⟩) 5
      [{ id := 10
         project_id := 1
         github_url := "https://github.com/a/b"
         repository_name := "a/b"
         stars := 4
         forks := 1
         watchers := 2
         language := some "Py"
         license := none
         is_private := false
         is_fork := false
         last_synced_at := some 3
         sync_error_message := none
         sync_enabled := false
         created_at := 0
         updated_at := 0 }]).2.2 := by
  have h := c10_bulk_sync_disabled_skip
    [{ id := 10
       project_id := 1
       github_url := "https://github.com/a/b"
       repository_name := "a/b"
       stars := 4
       forks := 1
       watchers := 2
       language := some "Py"
       license := none
       is_private := false
       is_fork := false
       last_synced_at := some 3
       sync_error_message := none
       sync_enabled := false
       created_at := 0
       updated_at := 0 }] [1]
    (fun _ => .response 200 ⟨7, 3, 2, none, none, false, false⟩) 5 1 _
    (by constructor <;> simp) (by simp) rfl rfl
  exact ⟨h.1, h.2.2.2⟩

/-- C5: OAuth account resolution — (1) a brand-new provider identity
with an unknown e-mail creates exactly one new verified `User` and one
new `AuthAccount`; (2) a login matching an existing
`(provider, providerUserId)` pair creates no new user, leaves the
accounts untouched and resolves to the account owner's `User.id`;
(3) a new identity whose e-mail matches an existing user only attaches
a new `AuthAccount` to that user; (4) hence a second login resolving to
the same `(provider, providerUserId)` right after (1) reuses the
first login's fresh `User.id` without creating a user. -/
theorem c5_oauth_identity_resolution (db db₂ : AuthDb) (provider : String)
    (info info₂ : OAuthUserInfo) (fu fa fu₂ fa₂ : String) (now now₂ : Nat)
    (acct : AuthAccount) (user eu : OAuthUser) :
    (find_auth_account db provider info.provider_user_id = none →
     find_user_by_email db info.email = none →
      create_or_update_oauth_user db provider info fu fa now =
        some (⟨db.users ++
            [⟨fu, info.email, info.name, info.github_username, true, now, now⟩],
          db.accounts ++ [⟨fa, fu, provider, info.provider_user_id, now⟩]⟩,
          ⟨fu, info.email, info.name, info.github_username, true, now, now⟩)) ∧
    (find_auth_account db₂ provider info₂.provider_user_id = some acct →
     find_user_by_id db₂ acct.user_id = some user →
      ∃ u₂, create_or_update_oauth_user db₂ provider info₂ fu₂ fa₂ now₂ =
          some (⟨updateUser db₂.users u₂, db₂.accounts⟩, u₂) ∧
        u₂.id = acct.user_id ∧
        (updateUser db₂.users u₂).length = db₂.users.length) ∧
    (find_auth_account db provider info.provider_user_id = none →
     find_user_by_email db info.email = some eu →
      create_or_update_oauth_user db provider info fu fa now =
        some (⟨db.users,
          db.accounts ++ [⟨fa, eu.id, provider, info.provider_user_id, now⟩]⟩, eu)) ∧
    (find_auth_account db provider info.provider_user_id = none →
     find_user_by_email db info.email = none →
     (∀ u ∈ db.users, u.id ≠ fu) →
     info₂.provider_user_id = info.provider_user_id →
      ∃ u₂, create_or_update_oauth_user
          ⟨db.users ++
              [⟨fu, info.email, info.name, info.github_username, true, now, now⟩],
            db.accounts ++ [⟨fa, fu, provider, info.provider_user_id, now⟩]⟩
          provider info₂ fu₂ fa₂ now₂ =
          some (⟨updateUser (db.users ++
              [⟨fu, info.email, info.name, info.github_username, true, now, now⟩]) u₂,
            db.accounts ++ [⟨fa, fu, provider, info.provider_user_id, now⟩]⟩, u₂) ∧
        u₂.id = fu ∧
        (updateUser (db.users ++
            [⟨fu, info.email, info.name, info.github_username, true, now, now⟩])
          u₂).length =
          (db.users ++
            [(⟨fu, info.email, info.name, info.github_username, true, now,
              now⟩ : OAuthUser)]).length) := by
  refine ⟨?_, ?_, ?_, ?_⟩
  · intro h₁ h₂
    unfold create_or_update_oauth_user
    rw [h₁, h₂]
  · intro ha hu
    have hid : user.id = acct.user_id := by
      unfold find_user_by_id at hu
      have := List.find?_some hu
      simpa using this
    unfold create_or_update_oauth_user
    rw [ha]
    dsimp only
    rw [hu]
    exact ⟨_, rfl, hid, by unfold updateUser; simp⟩
  · intro h₁ h₃
    unfold create_or_update_oauth_user
    rw [h₁, h₃]
  · intro h₁ h₂ hfu hpid
    have ha₂ : find_auth_account
        ⟨db.users ++
            [⟨fu, info.email, info.name, info.github_username, true, now, now⟩],
          db.accounts ++ [⟨fa, fu, provider, info.provider_user_id, now⟩]⟩
        provider info₂.provider_user_id =
        some ⟨fa, fu, provider, info.provider_user_id, now⟩ := by
      unfold find_auth_account at h₁ ⊢
      rw [hpid]
      dsimp only
      rw [List.find?_append, h₁, Option.none_or, List.find?_singleton,
        if_pos (by simp)]
    have hu₂ : find_user_by_id
        ⟨db.users ++
            [⟨fu, info.email, info.name, info.github_username, true, now, now⟩],
          db.accounts ++ [⟨fa, fu, provider, info.provider_user_id, now⟩]⟩ fu =
        some ⟨fu, info.email, info.name, info.github_username, true, now, now⟩ := by
      unfold find_user_by_id
      dsimp only
      rw [List.find?_append,
        List.find?_eq_none.mpr (fun u hu => by simp [hfu u hu]),
        Option.none_or, List.find?_singleton, if_pos (by simp)]
    unfold create_or_update_oauth_user
    rw [ha₂]
    dsimp only
    rw [hu₂]
    exact ⟨_, rfl, rfl, by unfold updateUser; simp⟩

/-- Witness for C5: a first login on the empty store and a second login
with the same provider identity. -/
theorem c5_witness :
    create_or_update_oauth_user ⟨[], []⟩ "github"
        ⟨"42", "a@b", "Al", none, none⟩ "u1" "a1" 0 =
      some (⟨[⟨"u1", "a@b", "Al", none, true, 0, 0⟩],
        [⟨"a1", "u1", "github", "42", 0⟩]⟩,
        ⟨"u1", "a@b", "Al", none, true, 0, 0⟩) ∧
    (∃ u₂, create_or_update_oauth_user
        ⟨[] ++ [⟨"u1", "a@b", "Al", none, true, 0, 0⟩],
          [] ++ [⟨"a1", "u1", "github", "42", 0⟩]⟩ "github"
        ⟨"42", "c@d", "Al2", none, none⟩ "u9" "a9" 1 =
        some (⟨updateUser ([] ++ [⟨"u1", "a@b", "Al", none, true, 0, 0⟩]) u₂,
          [] ++ [⟨"a1", "u1", "github", "42", 0⟩]⟩, u₂) ∧
      u₂.id = "u1" ∧
      (updateUser ([] ++ [⟨"u1", "a@b", "Al", none, true, 0, 0⟩]) u₂).length =
        ([] ++ [(⟨"u1", "a@b", "Al", none, true, 0, 0⟩ : OAuthUser)]).length) := by
  have h := c5_oauth_identity_resolution ⟨[], []⟩ ⟨[], []⟩ "github"
    ⟨"42", "a@b", "Al", none, none⟩ ⟨"42", "c@d", "Al2", none, none⟩
    "u1" "a1" "u9" "a9" 0 1 ⟨"a1", "u1", "github", "42", 0⟩
    ⟨"u1", "a@b", "Al", none, true, 0, 0⟩ ⟨"u1", "a@b", "Al", none, true, 0, 0⟩
  exact ⟨h.1 rfl rfl,
    h.2.2.2 rfl rfl (fun u hu => absurd hu (List.not_mem_nil u)) rfl⟩

end PortfolioManager
